import Mathlib

/-!
Verification of the sandboxed vault file-access core and the Brave search
rate limiter of the `use-mcp-on-claude` MCP server repository.

The definitions below are a shallow embedding of `src/obsidianMcpServer.ts`
and `src/braveSearch.ts`.  JavaScript strings are modelled as Lean `String`
(code points instead of UTF-16 units; all inputs of interest are ASCII),
timestamps as `Int` milliseconds, and the filesystem / resource cache as
explicit state passed through the operations.  All definitions are written
with structural recursion over `List Char` so that the kernel can evaluate
them on concrete inputs.
-/

/-! ## String helpers (models of the JavaScript string operations used) -/

/-- Model of `s.split(sep)` for a single-character separator (auxiliary). -/
def splitCharAux (sep : Char) : List Char → List Char → List String
  | [], acc => [String.mk acc.reverse]
  | c :: rest, acc =>
    if c = sep then String.mk acc.reverse :: splitCharAux sep rest []
    else splitCharAux sep rest (c :: acc)

/-- Model of JavaScript `s.split(sep)` for a single-character separator. -/
def splitChar (sep : Char) (s : String) : List String :=
  splitCharAux sep s.data []

/-- Boolean list-level check that `p` is an initial run of `l`. -/
def isPrefixList : List Char → List Char → Bool
  | [], _ => true
  | _ :: _, [] => false
  | a :: as, b :: bs => (a == b) && isPrefixList as bs

/-- Model of JavaScript `s.startsWith(p)`. -/
def strStartsWith (s p : String) : Bool :=
  isPrefixList p.data s.data

/-- Contiguous containment of `pat` in a character list. -/
def containsList (pat : List Char) : List Char → Bool
  | [] => pat.isEmpty
  | c :: rest => isPrefixList pat (c :: rest) || containsList pat rest

/-- Model of JavaScript `s.includes(pat)`. -/
def strContains (s pat : String) : Bool :=
  containsList pat.data s.data

/-- Model of JavaScript `s.toLowerCase()` (ASCII-faithful). -/
def lowerStr (s : String) : String :=
  String.mk (s.data.map Char.toLower)

/-- Model of JavaScript `s.substring(0, n)`. -/
def strTake (n : Nat) (s : String) : String :=
  String.mk (s.data.take n)

/-- Model of JavaScript `s.length` (code points; identical on ASCII/BMP). -/
def strLen (s : String) : Nat :=
  s.data.length

/-- UTF-8 byte size of a string, the `size` reported by `fs.stat` for a
file written with `fs.writeFile(..., 'utf-8')`. -/
def sizeBytes (s : String) : Nat :=
  s.data.foldl (fun n c => n + c.utf8Size) 0

/-- Model of `filePath.replace(/^\/+|\/+$/g, '')`: strip all leading and
trailing slash characters. -/
def stripSlashes (s : String) : String :=
  String.mk (((s.data.dropWhile (· = '/')).reverse.dropWhile (· = '/')).reverse)

instance exceptDecidableEq {ε α : Type} [DecidableEq ε] [DecidableEq α] :
    DecidableEq (Except ε α) := fun x y =>
  match x, y with
  | Except.ok a, Except.ok b =>
    if h : a = b then isTrue (by rw [h])
    else isFalse (by intro hc; cases hc; exact h rfl)
  | Except.error a, Except.error b =>
    if h : a = b then isTrue (by rw [h])
    else isFalse (by intro hc; cases hc; exact h rfl)
  | Except.ok _, Except.error _ => isFalse (by intro hc; cases hc)
  | Except.error _, Except.ok _ => isFalse (by intro hc; cases hc)

/-! ## Node `path.posix` model -/

/-- Segment resolution of Node's `path.posix.normalize`: drop empty and `"."`
segments, resolve `".."` against the segment stack; `".."` above the root is
kept for relative paths (`allowAboveRoot`) and dropped for absolute ones.
`acc` is the already-resolved stack, most recent segment first. -/
def normSegs (allowAboveRoot : Bool) : List String → List String → List String
  | acc, [] => acc.reverse
  | acc, s :: rest =>
    if s = "" ∨ s = "." then normSegs allowAboveRoot acc rest
    else if s = ".." then
      match acc with
      | [] => normSegs allowAboveRoot (if allowAboveRoot then [".."] else []) rest
      | t :: ts =>
        if t = ".." then normSegs allowAboveRoot (s :: t :: ts) rest
        else normSegs allowAboveRoot ts rest
    else normSegs allowAboveRoot (s :: acc) rest

/-- Model of Node `path.posix.normalize`. -/
def pathNormalize (p : String) : String :=
  if p = "" then "."
  else
    let isAbs := strStartsWith p "/"
    let trail := p.data.getLast? = some '/'
    let body := "/".intercalate (normSegs (!isAbs) [] (splitChar '/' p))
    if body = "" then
      if isAbs then "/" else if trail then "./" else "."
    else
      let body' := if trail then body ++ "/" else body
      if isAbs then "/" ++ body' else body'

/-- Model of Node `path.posix.join(a, b)`: empty arguments are skipped, the
rest are joined with `/` and the result is normalized. -/
def pathJoin (a b : String) : String :=
  if a = "" ∧ b = "" then "."
  else if a = "" then pathNormalize b
  else if b = "" then pathNormalize a
  else pathNormalize (a ++ "/" ++ b)

/-- Model of Node `path.posix.basename` on the paths used here: the last
non-empty `/`-separated segment. -/
def basename (p : String) : String :=
  (((splitChar '/' p).filter (fun s => s ≠ "")).getLast?).getD ""

/-- Filesystem-level directory containment: `p` lies inside the directory
`root` when it is the root itself or the root followed by a separator.  This
is the meaning of "inside the root directory" in the specification, as
opposed to the raw string-prefix test the code performs. -/
def inRootDir (root p : String) : Bool :=
  p = root || strStartsWith p (root ++ "/")

/-! ## Path sandbox resolution (`obsidianMcpServer.ts`) -/

/-- The shared resolution-and-check step of `readObsidianFile`,
`obsidian-create` and `obsidian-update` (lines 209-218, 420-427, 487-494):
strip slashes from the candidate, join it onto the vault root, and require
the raw string-prefix check `fullPath.startsWith(root)`. -/
def resolvePath (root filePath : String) : Except String String :=
  let normalizedPath := stripSlashes filePath
  let fullPath := pathJoin root normalizedPath
  if strStartsWith fullPath root then Except.ok fullPath
  else Except.error "Access denied: Path outside of allowed directory"

/-- The diagnostic error message thrown by `getObsidianFiles` when the
prefix check fails (lines 42-49), interpolating the vault root, the raw and
normalized candidate, the resolved path and the working directory. -/
def accessDeniedDetails (root dirPathStr normalizedDirPath fullPath cwd : String) : String :=
  "Access denied details:\n                       - OBSIDIAN_VAULT_PATH: " ++ root ++
  "\n                       - dirPathStr: " ++ dirPathStr ++
  "\n                       - normalizedDirPath: " ++ normalizedDirPath ++
  "\n                       - fullPath: " ++ fullPath ++
  "\n                       - process.cwd(): " ++ cwd ++
  "\n                       - fullPath.startsWith check: " ++
    (if strStartsWith fullPath root then "true" else "false") ++
  "\n                       Path does not start with allowed directory"

/-- The resolution step of `getObsidianFiles` (lines 32-50): the `"/"`
special case, slash stripping, join, and the prefix check with the verbose
diagnostic error. -/
def getObsidianFilesCheck (root cwd dirPathStr : String) : Except String String :=
  let normalizedDirPath := if dirPathStr = "/" then "" else stripSlashes dirPathStr
  let fullPath := pathJoin root normalizedDirPath
  if strStartsWith fullPath root then Except.ok fullPath
  else Except.error (accessDeniedDetails root dirPathStr normalizedDirPath fullPath cwd)

/-- The `obsidian-search` tool's catch handler (lines 156-167): any thrown
error message `m` is returned to the caller as this text block. -/
def searchErrorText (m : String) : String :=
  "Error searching files: " ++ m

/-! ## Brave search rate limiter (`braveSearch.ts`) -/

/-- The fixed monthly budget `RATE_LIMIT.perMonth`. -/
def perMonthBudget : Nat := 15000

/-- The `requestCount` record: per-second counter, monthly counter and the
`lastReset` timestamp in milliseconds. -/
structure RateState where
  second : Nat
  month : Nat
  lastReset : Int
deriving DecidableEq, Repr

/-- Model of `checkRateLimit` (lines 25-37).  The state component of the
result is the mutated global `requestCount` (the window reset persists even
when the monthly check throws); the optional string is the thrown message. -/
def checkRateLimit (now : Int) (s : RateState) : RateState × Option String :=
  let s1 := if now - s.lastReset > 1000 then { s with second := 0, lastReset := now } else s
  if s1.month ≥ perMonthBudget then (s1, some "Monthly rate limit exceeded")
  else ({ s1 with second := s1.second + 1, month := s1.month + 1 }, none)

/-- Rate-counter effect of `getPoisData` (lines 174-178): check and bump
only the monthly counter. -/
def getPoisDataRate (s : RateState) : RateState × Option String :=
  if s.month ≥ perMonthBudget then (s, some "Monthly rate limit exceeded")
  else ({ s with month := s.month + 1 }, none)

/-- Rate-counter effect of `getDescriptionsData` (lines 200-204): check and
bump only the monthly counter. -/
def getDescriptionsDataRate (s : RateState) : RateState × Option String :=
  if s.month ≥ perMonthBudget then (s, some "Monthly rate limit exceeded")
  else ({ s with month := s.month + 1 }, none)

/-- Rate-counter effect of `performWebSearch` (line 94): one
`checkRateLimit` call. -/
def performWebSearchRate (now : Int) (s : RateState) : RateState × Option String :=
  checkRateLimit now s

/-- Rate-counter effect of `performLocalSearch` (lines 128-171), given the
location ids returned by the (external) initial web fetch: one
`checkRateLimit` at time `now`; with no location ids, fall back to
`performWebSearch` after the 1.1s delay (its `checkRateLimit` runs at the
later time `tFallback`); otherwise the POI and description lookups, which
touch only the monthly counter. -/
def performLocalSearchRate (now tFallback : Int) (locationIds : List String)
    (s : RateState) : RateState × Option String :=
  match checkRateLimit now s with
  | (s1, some e) => (s1, some e)
  | (s1, none) =>
    if locationIds.isEmpty then performWebSearchRate tFallback s1
    else
      match getPoisDataRate s1 with
      | (s2, some e) => (s2, some e)
      | (s2, none) => getDescriptionsDataRate s2

/-- Model of `Number.toFixed(1)` applied to the exact quotient `num / den`,
rounding the tenths digit to nearest (half up); for the byte counts fed to
`formatFileSize` this agrees with the double computation. -/
def toFixedOne (num den : Nat) : String :=
  let tenths := (num * 10 + den / 2) / den
  toString (tenths / 10) ++ "." ++ toString (tenths % 10)

/-- Model of `formatFileSize` (lines 537-542). -/
def formatFileSize (bytes : Nat) : String :=
  if bytes < 1024 then toString bytes ++ " B"
  else if bytes < 1024 * 1024 then toFixedOne bytes 1024 ++ " KB"
  else if bytes < 1024 * 1024 * 1024 then toFixedOne bytes (1024 * 1024) ++ " MB"
  else toFixedOne bytes (1024 * 1024 * 1024) ++ " GB"

/-! ## Filesystem model and vault operations -/

/-- Metadata of a file on disk.  The modification and creation instants are
carried as their two string renderings used by the code
(`mtime.toISOString()`, `mtime.toLocaleString()`, `birthtime.toLocaleString()`);
date formatting itself is external presentation. -/
structure StatInfo where
  content : String
  mtimeIso : String
  mtimeLocale : String
  birthLocale : String
deriving DecidableEq, Repr

/-- A filesystem node: a regular file with its stat data, or a directory. -/
inductive FsNode where
  | file (info : StatInfo)
  | dir
deriving DecidableEq, Repr

/-- The filesystem, keyed by absolute path. -/
def FS := String → Option FsNode

/-- Point update of the filesystem (the effect of `fs.writeFile`). -/
def fsSet (fs : FS) (p : String) (n : FsNode) : FS :=
  fun q => if q = p then some n else fs q

/-- The current clock, as the two renderings a freshly written file's
timestamps get. -/
structure Clock where
  nowIso : String
  nowLocale : String
deriving DecidableEq, Repr

/-- The `FileInfo` record of `obsidianMcpServer.ts` (lines 14-20). -/
structure FileInfo where
  name : String
  path : String
  isDirectory : Bool
  size : Nat
  modified : String
deriving DecidableEq, Repr

/-- The result of `readObsidianFile`: full content plus the file info. -/
structure ReadResult where
  content : String
  fileInfo : FileInfo
deriving DecidableEq, Repr

/-- Model of `readObsidianFile` (lines 209-237): resolve with the
string-prefix sandbox check, `fs.stat`, reject directories, read the whole
content.  A missing path makes `fs.stat` throw; its system message is
modelled as `"ENOENT: " ++ fullPath`. -/
def readObsidianFile (root : String) (fs : FS) (filePath : String) :
    Except String ReadResult :=
  let normalizedPath := stripSlashes filePath
  let fullPath := pathJoin root normalizedPath
  if strStartsWith fullPath root then
    match fs fullPath with
    | none => Except.error ("ENOENT: " ++ fullPath)
    | some FsNode.dir => Except.error "Not a file: Directory cannot be read as a file"
    | some (FsNode.file info) =>
      Except.ok
        { content := info.content
          fileInfo :=
            { name := basename fullPath
              path := normalizedPath
              isDirectory := false
              size := sizeBytes info.content
              modified := info.mtimeIso } }
  else Except.error "Access denied: Path outside of allowed directory"

/-- Model of the `obsidian-create` tool handler (lines 413-475).  Returns
the possibly-updated filesystem and the caller-visible text block.  `fs.access`
succeeds exactly when the path maps to a node; `fs.mkdir` is the identity in
this model (directories are implicit); writing over a directory makes
`fs.writeFile` throw (modelled as an `EISDIR` message caught by the outer
handler). -/
def obsidianCreate (root : String) (clock : Clock) (fs : FS)
    (filePath content : String) (overwrite : Bool) : FS × String :=
  let normalizedPath := stripSlashes filePath
  let fullPath := pathJoin root normalizedPath
  if strStartsWith fullPath root then
    match fs fullPath with
    | some node =>
      if !overwrite then
        (fs, "File already exists: " ++ normalizedPath ++ ". Use overwrite=true to replace it.")
      else
        match node with
        | FsNode.dir =>
          (fs, "Error creating file: EISDIR: illegal operation on a directory, open " ++ fullPath)
        | FsNode.file old =>
          let fs' := fsSet fs fullPath (FsNode.file
            { content := content, mtimeIso := clock.nowIso,
              mtimeLocale := clock.nowLocale, birthLocale := old.birthLocale })
          (fs', "File created successfully: " ++ normalizedPath ++
                "\nSize: " ++ formatFileSize (sizeBytes content) ++
                "\nCreated: " ++ old.birthLocale)
    | none =>
      let fs' := fsSet fs fullPath (FsNode.file
        { content := content, mtimeIso := clock.nowIso,
          mtimeLocale := clock.nowLocale, birthLocale := clock.nowLocale })
      (fs', "File created successfully: " ++ normalizedPath ++
            "\nSize: " ++ formatFileSize (sizeBytes content) ++
            "\nCreated: " ++ clock.nowLocale)
  else
    (fs, "Error creating file: Access denied: Path outside of allowed directory")

/-- Model of the `obsidian-update` tool handler (lines 477-535): resolve and
sandbox-check, require an existing regular file (anything else reports
`File not found`), then either overwrite with the new content or append it
after a single newline separator. -/
def obsidianUpdate (root : String) (clock : Clock) (fs : FS)
    (filePath content : String) (append : Bool) : FS × String :=
  let normalizedPath := stripSlashes filePath
  let fullPath := pathJoin root normalizedPath
  if strStartsWith fullPath root then
    match fs fullPath with
    | some (FsNode.file old) =>
      let finalContent := if append then old.content ++ "\n" ++ content else content
      let fs' := fsSet fs fullPath (FsNode.file
        { content := finalContent, mtimeIso := clock.nowIso,
          mtimeLocale := clock.nowLocale, birthLocale := old.birthLocale })
      (fs', "File updated successfully: " ++ normalizedPath ++
            "\nSize: " ++ formatFileSize (sizeBytes finalContent) ++
            "\nModified: " ++ clock.nowLocale ++
            "\nOperation: " ++ (if append then "Appended" else "Replaced"))
    | _ =>
      (fs, "Error updating file: File not found: " ++ normalizedPath)
  else
    (fs, "Error updating file: Access denied: Path outside of allowed directory")

/-! ## Resource cache, resource read and `obsidian-view` -/

/-- The per-process resource cache (`resourceCache`, line 12), keyed by the
resource URI string.  The entries relevant here are the `{ content, fileInfo }`
responses cached by the `obsidian-read` resource. -/
def Cache := String → Option ReadResult

/-- Point update of the cache. -/
def cacheSet (c : Cache) (uri : String) (r : ReadResult) : Cache :=
  fun q => if q = uri then some r else c q

/-- The combined per-process server state: the vault filesystem and the
resource cache. -/
structure ServerState where
  fs : FS
  cache : Cache

/-- The URI under which a read of `filePath` is cached: the expansion of the
template `obsidian://{filePath}/read`, and the exact key string the
`obsidian-view` tool rebuilds (line 246). -/
def readUri (filePath : String) : String :=
  "obsidian://" ++ filePath ++ "/read"

/-- Model of the `obsidian-read` resource handler (lines 171-207): read the
file, cache the `{ content, fileInfo }` response under the request URI, and
return it (its JSON rendering is presentation); on failure re-throw with a
`Failed to read file:` message and leave the cache untouched. -/
def obsidianReadResource (root : String) (st : ServerState) (filePath : String) :
    ServerState × Except String ReadResult :=
  match readObsidianFile root st.fs filePath with
  | Except.ok r =>
    ({ st with cache := cacheSet st.cache (readUri filePath) r }, Except.ok r)
  | Except.error e => (st, Except.error ("Failed to read file: " ++ e))

/-- The trailing segment of a name from its last dot, like Node
`path.extname` on a plain base name: empty when there is no dot or when the
only dot is the leading character (auxiliary). -/
def afterLastDot : List Char → Option (List Char)
  | [] => none
  | c :: rest =>
    match afterLastDot rest with
    | some r => some r
    | none => if c = '.' then some (c :: rest) else none

/-- Model of Node `path.posix.extname` on the base names used here. -/
def extname (base : String) : String :=
  match base.data with
  | [] => ""
  | _ :: rest =>
    match afterLastDot rest with
    | some r => String.mk r
    | none => ""

/-- The response text of `obsidian-view` (lines 272-289), rendered from a
`{ content, fileInfo }` record; `localeOf` is the external
`new Date(iso).toLocaleString()` formatter. -/
def viewText (localeOf : String → String) (d : ReadResult) : String :=
  let isMarkdown := lowerStr (extname d.fileInfo.name) = ".md"
  "File: " ++ d.fileInfo.name ++
  "\nSize: " ++ formatFileSize d.fileInfo.size ++
  "\nLast Modified: " ++ localeOf d.fileInfo.modified ++
  "\n\n" ++ (if isMarkdown then "Markdown Content" else "Content") ++
  ":\n\n" ++ d.content

/-- Model of the `obsidian-view` tool handler (lines 239-303): rebuild the
read-resource URI, serve from `resourceCache` when present, otherwise read
the file and cache the result. -/
def obsidianView (root : String) (localeOf : String → String) (st : ServerState)
    (filePath : String) : ServerState × String :=
  let uri := readUri filePath
  match st.cache uri with
  | some fileData => (st, viewText localeOf fileData)
  | none =>
    match readObsidianFile root st.fs filePath with
    | Except.error e => (st, "Error reading file: " ++ e)
    | Except.ok d =>
      ({ st with cache := cacheSet st.cache uri d }, viewText localeOf d)

/-- The `obsidian-update` tool lifted to the combined server state.  The
handler (lines 477-535) acts on the filesystem only and never mentions
`resourceCache`, so the cache component passes through unchanged. -/
def serverUpdate (root : String) (clock : Clock) (st : ServerState)
    (filePath content : String) (append : Bool) : ServerState × String :=
  let r := obsidianUpdate root clock st.fs filePath content append
  ({ fs := r.1, cache := st.cache }, r.2)

/-- The `obsidian-create` tool lifted to the combined server state; like
`obsidian-update` it never mentions `resourceCache`. -/
def serverCreate (root : String) (clock : Clock) (st : ServerState)
    (filePath content : String) (overwrite : Bool) : ServerState × String :=
  let r := obsidianCreate root clock st.fs filePath content overwrite
  ({ fs := r.1, cache := st.cache }, r.2)

/-! ## Content search engine (`obsidian-content-search`, lines 305-411) -/

/-- The matching lines of a file (lines 341-349): split the content on
newlines, index from 1, keep the lines whose lowercase form contains the
lowercase query. -/
def fileMatches (content query : String) : List (Nat × String) :=
  ((((splitChar '\n' content).enum).map
      (fun p => (p.1 + 1, p.2, strContains (lowerStr p.2) (lowerStr query)))).filter
    (fun t => t.2.2)).map (fun t => (t.1, t.2.1))

/-- The stored content preview (line 354): the first 200 characters plus an
ellipsis marker when the content is longer than 200 characters. -/
def contentPreview (content : String) : String :=
  if strLen content > 200 then strTake 200 content ++ "..." else content

/-- A per-file entry of the search report. -/
structure SearchResult where
  fileInfo : FileInfo
  content : String
  «matches» : List (Nat × String)
deriving DecidableEq, Repr

/-- The per-file body of the search loop (lines 337-357): files whose whole
content contains the query case-insensitively contribute an entry with the
truncated preview and the first 5 matching lines. -/
def searchFileResult (content : String) (fileInfo : FileInfo) (query : String) :
    Option SearchResult :=
  if strContains (lowerStr content) (lowerStr query) then
    some { fileInfo := fileInfo
           content := contentPreview content
           «matches» := (fileMatches content query).take 5 }
  else none

/-- The search loop over the candidate files (lines 334-361): read each file,
catching and logging per-file errors (the file is skipped and the loop
continues), and collect the entries of the matching files in order. -/
def contentSearchLoop (root : String) (fs : FS) (query : String) :
    List FileInfo → List SearchResult
  | [] => []
  | file :: rest =>
    match readObsidianFile root fs file.path with
    | Except.error _ => contentSearchLoop root fs query rest
    | Except.ok r =>
      match searchFileResult r.content r.fileInfo query with
      | some entry => entry :: contentSearchLoop root fs query rest
      | none => contentSearchLoop root fs query rest

/-! ## Concrete fixtures used by the witness theorems -/

/-- Stat data of a small fixture file with content `"hello"`. -/
def fileHello : StatInfo :=
  { content := "hello"
    mtimeIso := "2026-01-01T00:00:00.000Z"
    mtimeLocale := "1/1/2026, 12:00:00 AM"
    birthLocale := "1/1/2026, 12:00:00 AM" }

/-- A vault filesystem under root `/v` holding the single file `/v/a.md`. -/
def fsW : FS :=
  fun p => if p = "/v/a.md" then some (FsNode.file fileHello) else none

/-- A fixed clock for the witness runs. -/
def clockW : Clock :=
  { nowIso := "2026-02-02T00:00:00.000Z", nowLocale := "2/2/2026, 12:00:00 AM" }

/-- The listing entry of the fixture file `/v/a.md`. -/
def infoW : FileInfo :=
  { name := "a.md"
    path := "a.md"
    isDirectory := false
    size := 5
    modified := "2026-01-01T00:00:00.000Z" }

/-- A listing entry whose path does not exist in `fsW`, so reading it
throws. -/
def infoBad : FileInfo :=
  { name := "missing.md"
    path := "missing.md"
    isDirectory := false
    size := 0
    modified := "2026-01-01T00:00:00.000Z" }

/-- A server state over `fsW` with an empty resource cache. -/
def stW : ServerState :=
  { fs := fsW, cache := fun _ => none }

/-- The read result of the fixture file `/v/a.md`. -/
def rW : ReadResult :=
  { content := "hello"
    fileInfo :=
      { name := "a.md"
        path := "a.md"
        isDirectory := false
        size := 5
        modified := "2026-01-01T00:00:00.000Z" } }

/-- A ten-line fixture content in which every line matches the query
`"x"`. -/
def tenLines : String :=
  "x\nx\nx\nx\nx\nx\nx\nx\nx\nx"

/-! ## Helper lemmas -/

theorem strData_append (a b : String) : (a ++ b).data = a.data ++ b.data := by
  cases a; cases b; rfl

theorem strMk_data (l : List Char) : (String.mk l).data = l := rfl

theorem isPrefixList_append_of {p f : List Char} (x : List Char)
    (h : isPrefixList p f = true) : isPrefixList p (f ++ x) = true := by
  induction p generalizing f with
  | nil => rfl
  | cons a as ih =>
    cases f with
    | nil => simp [isPrefixList] at h
    | cons b bs =>
      simp only [isPrefixList, Bool.and_eq_true] at h
      simp only [List.cons_append, isPrefixList, Bool.and_eq_true]
      exact ⟨h.1, ih h.2⟩

theorem pairwise_fst_lt_enumFrom {α : Type} (n : Nat) (l : List α) :
    List.Pairwise (fun a b : Nat × α => a.1 < b.1) (List.enumFrom n l) := by
  induction l generalizing n with
  | nil => exact List.Pairwise.nil
  | cons x xs ih =>
    refine List.Pairwise.cons ?_ (ih (n + 1))
    intro y hy
    have hy' : (y.1, y.2) ∈ List.enumFrom (n + 1) xs := by simpa using hy
    have := (List.mem_enumFrom hy').1
    omega

theorem fileMatches_pairwise (content query : String) :
    List.Pairwise (fun a b : Nat × String => a.1 < b.1) (fileMatches content query) := by
  unfold fileMatches
  rw [List.pairwise_map]
  refine List.Pairwise.sublist (List.filter_sublist _) ?_
  rw [List.pairwise_map]
  have h := pairwise_fst_lt_enumFrom 0 (splitChar '\n' content)
  have : List.enum (splitChar '\n' content) = List.enumFrom 0 (splitChar '\n' content) := rfl
  rw [this]
  exact h.imp (fun hab => by omega)

/-! ## Claim theorems -/

/-- C1 (counterexample): the claim "resolution never returns a path that
lies outside the root directory" is false as stated.  With root `/vault`
and candidate `../vault2/x` (which contains a `..` segment), resolution
succeeds and returns `/vault2/x`, which passes the string-prefix check but
lies outside the directory `/vault`. -/
theorem resolve_outside_root_cex :
    (splitChar '/' "../vault2/x").contains ".." = true ∧
    resolvePath "/vault" "../vault2/x" = Except.ok "/vault2/x" ∧
    inRootDir "/vault" "/vault2/x" = false := by
  decide

/-- C1 (amended): for every root and candidate (in particular every
candidate containing `..` segments), path resolution either returns a path
whose string representation starts with the root, or fails with the
AccessDenied error; likewise the `getObsidianFiles` variant either returns
such a path or fails with its `Access denied` diagnostic error.  (The
returned path may nevertheless lie outside the root directory, as the
counterexample shows.) -/
theorem resolve_startsWith_or_denied (root cwd candidate : String) :
    ((∃ full, resolvePath root candidate = Except.ok full ∧
        strStartsWith full root = true) ∨
      resolvePath root candidate =
        Except.error "Access denied: Path outside of allowed directory") ∧
    ((∃ full, getObsidianFilesCheck root cwd candidate = Except.ok full ∧
        strStartsWith full root = true) ∨
      (∃ m, getObsidianFilesCheck root cwd candidate = Except.error m ∧
        strStartsWith m "Access denied" = true)) := by
  constructor
  · unfold resolvePath
    by_cases h : strStartsWith (pathJoin root (stripSlashes candidate)) root = true
    · exact Or.inl ⟨pathJoin root (stripSlashes candidate), by simp [h], h⟩
    · right
      simp [h]
  · unfold getObsidianFilesCheck
    by_cases h : strStartsWith
        (pathJoin root (if candidate = "/" then "" else stripSlashes candidate)) root = true
    · exact Or.inl ⟨_, by simp [h], h⟩
    · right
      refine ⟨accessDeniedDetails root candidate
          (if candidate = "/" then "" else stripSlashes candidate)
          (pathJoin root (if candidate = "/" then "" else stripSlashes candidate)) cwd,
        by simp [h], ?_⟩
      unfold accessDeniedDetails strStartsWith
      simp only [strData_append, List.append_assoc]
      exact isPrefixList_append_of _ (by decide)

/-- C2: the string-prefix sandbox check admits sibling-directory prefix
collisions.  With root `/a/b` and candidate `../bc` resolution succeeds —
no AccessDenied — yet the resolved path `/a/bc` is a sibling of the root,
not contained in the root directory. -/
theorem sibling_collision_escape :
    (splitChar '/' "../bc").contains ".." = true ∧
    resolvePath "/a/b" "../bc" = Except.ok "/a/bc" ∧
    strStartsWith "/a/bc" "/a/b" = true ∧
    inRootDir "/a/b" "/a/bc" = false := by
  decide

set_option maxRecDepth 40000 in
/-- C4: evidence for the diagnostics leak.  At root `/vault`, working
directory `/home/user` and candidate `../secret`, `getObsidianFiles` throws
its verbose diagnostic error, and the `obsidian-search` catch handler
returns exactly that message to the caller: the caller-visible text
contains the vault root, the candidate, the resolved path and the working
directory, far more than "access denied". -/
theorem search_denied_leaks_diagnostics :
    getObsidianFilesCheck "/vault" "/home/user" "../secret" =
      Except.error
        (accessDeniedDetails "/vault" "../secret" "../secret" "/secret" "/home/user") ∧
    strContains
      (searchErrorText
        (accessDeniedDetails "/vault" "../secret" "../secret" "/secret" "/home/user"))
      "OBSIDIAN_VAULT_PATH: /vault" = true ∧
    strContains
      (searchErrorText
        (accessDeniedDetails "/vault" "../secret" "../secret" "/secret" "/home/user"))
      "dirPathStr: ../secret" = true ∧
    strContains
      (searchErrorText
        (accessDeniedDetails "/vault" "../secret" "../secret" "/secret" "/home/user"))
      "fullPath: /secret" = true ∧
    strContains
      (searchErrorText
        (accessDeniedDetails "/vault" "../secret" "../secret" "/secret" "/home/user"))
      "process.cwd(): /home/user" = true := by
  decide

/-- C3: `checkRateLimit` fails iff the monthly count has reached the
monthly budget of 15000 at the time of the call (the per-second count never
influences the outcome); the only failure is
`RateLimitExceeded("Monthly rate limit exceeded")`; on failure neither
counter is incremented; whenever more than 1000ms have elapsed since the
last reset the per-second count is reset to 0 and the reset timestamp set
to `now` before the monthly test (so it sticks even on failure); and on
every allowed call both counters are incremented by one. -/
theorem checkRateLimit_spec (now : Int) (s : RateState) :
    perMonthBudget = 15000 ∧
    ((checkRateLimit now s).2.isSome ↔ s.month ≥ perMonthBudget) ∧
    ((checkRateLimit now s).2 = none ∨
      (checkRateLimit now s).2 = some "Monthly rate limit exceeded") ∧
    (∀ k, (checkRateLimit now { s with second := k }).2 = (checkRateLimit now s).2) ∧
    ((checkRateLimit now s).2.isSome →
      (checkRateLimit now s).1.month = s.month ∧
      (checkRateLimit now s).1.second =
        (if now - s.lastReset > 1000 then 0 else s.second)) ∧
    (now - s.lastReset > 1000 →
      (checkRateLimit now s).1.lastReset = now ∧
      ((checkRateLimit now s).2.isSome → (checkRateLimit now s).1.second = 0) ∧
      ((checkRateLimit now s).2 = none → (checkRateLimit now s).1.second = 1)) ∧
    (¬ now - s.lastReset > 1000 → (checkRateLimit now s).1.lastReset = s.lastReset) ∧
    ((checkRateLimit now s).2 = none →
      (checkRateLimit now s).1.month = s.month + 1 ∧
      (checkRateLimit now s).1.second =
        (if now - s.lastReset > 1000 then 0 else s.second) + 1) := by
  refine ⟨rfl, ?_⟩
  by_cases h : now - s.lastReset > 1000 <;>
    by_cases hm : s.month ≥ perMonthBudget <;>
      simp [checkRateLimit, h, hm]

/-- C3 (witness): the behavioral specification of `checkRateLimit`
instantiated at a concrete state with an expired window and an exhausted
monthly budget. -/
theorem checkRateLimit_spec_witness :
    checkRateLimit 2500 { second := 7, month := 15000, lastReset := 100 } =
      ({ second := 0, month := 15000, lastReset := 2500 },
        some "Monthly rate limit exceeded") ∧
    (perMonthBudget = 15000 ∧
      ((checkRateLimit 2500 { second := 7, month := 15000, lastReset := 100 }).2.isSome ↔
        (15000 : Nat) ≥ perMonthBudget) ∧
      ((checkRateLimit 2500 { second := 7, month := 15000, lastReset := 100 }).2 = none ∨
        (checkRateLimit 2500 { second := 7, month := 15000, lastReset := 100 }).2 =
          some "Monthly rate limit exceeded") ∧
      (∀ k, (checkRateLimit 2500 { second := k, month := 15000, lastReset := 100 }).2 =
        (checkRateLimit 2500 { second := 7, month := 15000, lastReset := 100 }).2) ∧
      ((checkRateLimit 2500 { second := 7, month := 15000, lastReset := 100 }).2.isSome →
        (checkRateLimit 2500 { second := 7, month := 15000, lastReset := 100 }).1.month = 15000 ∧
        (checkRateLimit 2500 { second := 7, month := 15000, lastReset := 100 }).1.second =
          (if (2500 : Int) - 100 > 1000 then 0 else 7)) ∧
      ((2500 : Int) - 100 > 1000 →
        (checkRateLimit 2500 { second := 7, month := 15000, lastReset := 100 }).1.lastReset = 2500 ∧
        ((checkRateLimit 2500 { second := 7, month := 15000, lastReset := 100 }).2.isSome →
          (checkRateLimit 2500 { second := 7, month := 15000, lastReset := 100 }).1.second = 0) ∧
        ((checkRateLimit 2500 { second := 7, month := 15000, lastReset := 100 }).2 = none →
          (checkRateLimit 2500 { second := 7, month := 15000, lastReset := 100 }).1.second = 1)) ∧
      (¬ (2500 : Int) - 100 > 1000 →
        (checkRateLimit 2500 { second := 7, month := 15000, lastReset := 100 }).1.lastReset = 100) ∧
      ((checkRateLimit 2500 { second := 7, month := 15000, lastReset := 100 }).2 = none →
        (checkRateLimit 2500 { second := 7, month := 15000, lastReset := 100 }).1.month = 15000 + 1 ∧
        (checkRateLimit 2500 { second := 7, month := 15000, lastReset := 100 }).1.second =
          (if (2500 : Int) - 100 > 1000 then 0 else 7) + 1)) :=
  ⟨by decide, checkRateLimit_spec 2500 { second := 7, month := 15000, lastReset := 100 }⟩

/-- C10 (counterexample): the claim fails when the monthly budget runs out
mid-call and for the per-second counter when a window reset occurs.  At
state `{second := 5, month := 14998, lastReset := 0}` a local search at
time 2000 with one location id consumes only 2 monthly units (14998 to
15000, not 3) before `getDescriptionsData` throws, and the per-second
counter ends at 1, not 5 + 1. -/
theorem localSearch_budget_cex :
    performLocalSearchRate 2000 9999 ["loc1"]
        { second := 5, month := 14998, lastReset := 0 } =
      ({ second := 1, month := 15000, lastReset := 2000 },
        some "Monthly rate limit exceeded") ∧
    ¬ (15000 : Nat) = 14998 + 3 ∧
    ¬ (1 : Nat) = 5 + 1 := by
  decide

/-- C10 (amended): every `brave_local_search` call whose initial web query
returns at least one location id, and which starts with at least 3 monthly
units remaining, consumes exactly 3 units of the monthly budget — one
through `checkRateLimit` in the initial web search and one each in
`getPoisData` and `getDescriptionsData` — while the per-second counter is
incremented exactly once (to 1 after a window reset, to `second + 1`
otherwise), because the POI and description lookups check and increment
only the monthly counter and never touch the per-second window. -/
theorem localSearch_budget (now tFallback : Int) (ids : List String) (s : RateState)
    (hids : ids ≠ []) (hbudget : s.month + 3 ≤ perMonthBudget) :
    performLocalSearchRate now tFallback ids s =
      ({ second := (if now - s.lastReset > 1000 then 0 else s.second) + 1,
         month := s.month + 3,
         lastReset := if now - s.lastReset > 1000 then now else s.lastReset }, none) := by
  have h1 : ¬ s.month ≥ perMonthBudget := by unfold perMonthBudget at *; omega
  have hne : ids.isEmpty = false := by
    cases ids with
    | nil => exact absurd rfl hids
    | cons a l => rfl
  have h2 : ¬ perMonthBudget ≤ s.month + 1 := by unfold perMonthBudget at *; omega
  have h3 : ¬ perMonthBudget ≤ s.month + 1 + 1 := by unfold perMonthBudget at *; omega
  by_cases h : now - s.lastReset > 1000 <;>
    simp [performLocalSearchRate, checkRateLimit, getPoisDataRate,
      getDescriptionsDataRate, h, h1, hne, h2, h3]

/-- C10 (witness): the amended budget accounting instantiated at a concrete
state with room in the budget and no window reset due. -/
theorem localSearch_budget_witness :
    (["loc1", "loc2"] : List String) ≠ [] ∧ (40 : Nat) + 3 ≤ perMonthBudget ∧
    performLocalSearchRate 500 2800 ["loc1", "loc2"]
        { second := 2, month := 40, lastReset := 0 } =
      ({ second := (if (500 : Int) - 0 > 1000 then 0 else 2) + 1,
         month := 40 + 3,
         lastReset := if (500 : Int) - 0 > 1000 then (500 : Int) else 0 }, none) :=
  ⟨by decide, by decide,
    localSearch_budget 500 2800 ["loc1", "loc2"]
      { second := 2, month := 40, lastReset := 0 } (by decide) (by decide)⟩

/-- C5: for every existing file, `obsidian-create` with `overwrite = false`
is a no-op: the filesystem (in particular the file's content) is unchanged
and the result is the "File already exists" conflict text — distinct from
the success text the overwriting call produces, and not an error text. -/
theorem create_existing_no_overwrite (root : String) (clock : Clock) (fs : FS)
    (filePath c : String) (old : StatInfo)
    (hres : strStartsWith (pathJoin root (stripSlashes filePath)) root = true)
    (hex : fs (pathJoin root (stripSlashes filePath)) = some (FsNode.file old)) :
    (obsidianCreate root clock fs filePath c false).1 = fs ∧
    (obsidianCreate root clock fs filePath c false).2 =
      "File already exists: " ++ stripSlashes filePath ++
        ". Use overwrite=true to replace it." ∧
    strStartsWith (obsidianCreate root clock fs filePath c false).2
      "File already exists" = true ∧
    strStartsWith (obsidianCreate root clock fs filePath c false).2
      "File created successfully" = false ∧
    strStartsWith (obsidianCreate root clock fs filePath c false).2 "Error" = false ∧
    strStartsWith (obsidianCreate root clock fs filePath c true).2
      "File created successfully" = true := by
  have hmain : obsidianCreate root clock fs filePath c false =
      (fs, "File already exists: " ++ stripSlashes filePath ++
        ". Use overwrite=true to replace it.") := by
    simp [obsidianCreate, hres, hex]
  have hover : (obsidianCreate root clock fs filePath c true).2 =
      "File created successfully: " ++ stripSlashes filePath ++
        "\nSize: " ++ formatFileSize (sizeBytes c) ++ "\nCreated: " ++ old.birthLocale := by
    simp [obsidianCreate, hres, hex]
  have hp1 : isPrefixList "File already exists".data "File already exists: ".data = true := by
    decide
  have hp2 : isPrefixList "File created successfully".data
      "File created successfully: ".data = true := by
    decide
  refine ⟨by rw [hmain], by rw [hmain], ?_, ?_, ?_, ?_⟩
  · rw [hmain]
    unfold strStartsWith
    simp only [strData_append]
    exact isPrefixList_append_of _ hp1
  · rw [hmain]
    unfold strStartsWith
    simp only [strData_append]
    rfl
  · rw [hmain]
    unfold strStartsWith
    simp only [strData_append]
    rfl
  · rw [hover]
    unfold strStartsWith
    simp only [strData_append]
    exact isPrefixList_append_of _ hp2

/-- C5 (witness): the conflict behavior at a concrete vault holding
`/v/a.md` with content `"hello"`. -/
theorem create_existing_no_overwrite_witness :
    strStartsWith (pathJoin "/v" (stripSlashes "a.md")) "/v" = true ∧
    fsW (pathJoin "/v" (stripSlashes "a.md")) = some (FsNode.file fileHello) ∧
    ((obsidianCreate "/v" clockW fsW "a.md" "other" false).1 = fsW ∧
      (obsidianCreate "/v" clockW fsW "a.md" "other" false).2 =
        "File already exists: " ++ stripSlashes "a.md" ++
          ". Use overwrite=true to replace it." ∧
      strStartsWith (obsidianCreate "/v" clockW fsW "a.md" "other" false).2
        "File already exists" = true ∧
      strStartsWith (obsidianCreate "/v" clockW fsW "a.md" "other" false).2
        "File created successfully" = false ∧
      strStartsWith (obsidianCreate "/v" clockW fsW "a.md" "other" false).2
        "Error" = false ∧
      strStartsWith (obsidianCreate "/v" clockW fsW "a.md" "other" true).2
        "File created successfully" = true) :=
  ⟨by decide, by decide,
    create_existing_no_overwrite "/v" clockW fsW "a.md" "other" fileHello
      (by decide) (by decide)⟩

/-- C6: for every existing file with content `c`, `obsidian-update` with
`append = true` and new content `n` writes exactly `c ++ "\n" ++ n` (old
content, one newline, new content), and a subsequent read returns that
concatenation; with `append = false` the file is overwritten with `n`
alone, and a subsequent read returns `n`. -/
theorem update_append_semantics (root : String) (clock : Clock) (fs : FS)
    (filePath n : String) (old : StatInfo)
    (hres : strStartsWith (pathJoin root (stripSlashes filePath)) root = true)
    (hex : fs (pathJoin root (stripSlashes filePath)) = some (FsNode.file old)) :
    (obsidianUpdate root clock fs filePath n true).1
        (pathJoin root (stripSlashes filePath)) =
      some (FsNode.file
        { content := old.content ++ "\n" ++ n
          mtimeIso := clock.nowIso
          mtimeLocale := clock.nowLocale
          birthLocale := old.birthLocale }) ∧
    (∃ r, readObsidianFile root (obsidianUpdate root clock fs filePath n true).1 filePath =
        Except.ok r ∧ r.content = old.content ++ "\n" ++ n) ∧
    (obsidianUpdate root clock fs filePath n false).1
        (pathJoin root (stripSlashes filePath)) =
      some (FsNode.file
        { content := n
          mtimeIso := clock.nowIso
          mtimeLocale := clock.nowLocale
          birthLocale := old.birthLocale }) ∧
    (∃ r, readObsidianFile root (obsidianUpdate root clock fs filePath n false).1 filePath =
        Except.ok r ∧ r.content = n) := by
  have h1 : (obsidianUpdate root clock fs filePath n true).1 =
      fsSet fs (pathJoin root (stripSlashes filePath)) (FsNode.file
        { content := old.content ++ "\n" ++ n
          mtimeIso := clock.nowIso
          mtimeLocale := clock.nowLocale
          birthLocale := old.birthLocale }) := by
    simp [obsidianUpdate, hres, hex]
  have h2 : (obsidianUpdate root clock fs filePath n false).1 =
      fsSet fs (pathJoin root (stripSlashes filePath)) (FsNode.file
        { content := n
          mtimeIso := clock.nowIso
          mtimeLocale := clock.nowLocale
          birthLocale := old.birthLocale }) := by
    simp [obsidianUpdate, hres, hex]
  refine ⟨by rw [h1]; simp [fsSet], ?_, by rw [h2]; simp [fsSet], ?_⟩
  · refine ⟨{ content := old.content ++ "\n" ++ n
              fileInfo :=
                { name := basename (pathJoin root (stripSlashes filePath))
                  path := stripSlashes filePath
                  isDirectory := false
                  size := sizeBytes (old.content ++ "\n" ++ n)
                  modified := clock.nowIso } }, ?_, rfl⟩
    rw [h1]
    simp [readObsidianFile, hres, fsSet]
  · refine ⟨{ content := n
              fileInfo :=
                { name := basename (pathJoin root (stripSlashes filePath))
                  path := stripSlashes filePath
                  isDirectory := false
                  size := sizeBytes n
                  modified := clock.nowIso } }, ?_, rfl⟩
    rw [h2]
    simp [readObsidianFile, hres, fsSet]

/-- C6 (witness): append then read at the concrete vault: `/v/a.md` holds
`"hello"`, appending `"world"` stores and re-reads `"hello\nworld"`, and a
plain update stores and re-reads `"world"`. -/
theorem update_append_semantics_witness :
    strStartsWith (pathJoin "/v" (stripSlashes "a.md")) "/v" = true ∧
    fsW (pathJoin "/v" (stripSlashes "a.md")) = some (FsNode.file fileHello) ∧
    ((obsidianUpdate "/v" clockW fsW "a.md" "world" true).1
        (pathJoin "/v" (stripSlashes "a.md")) =
      some (FsNode.file
        { content := fileHello.content ++ "\n" ++ "world"
          mtimeIso := clockW.nowIso
          mtimeLocale := clockW.nowLocale
          birthLocale := fileHello.birthLocale }) ∧
    (∃ r, readObsidianFile "/v" (obsidianUpdate "/v" clockW fsW "a.md" "world" true).1 "a.md" =
        Except.ok r ∧ r.content = fileHello.content ++ "\n" ++ "world") ∧
    (obsidianUpdate "/v" clockW fsW "a.md" "world" false).1
        (pathJoin "/v" (stripSlashes "a.md")) =
      some (FsNode.file
        { content := "world"
          mtimeIso := clockW.nowIso
          mtimeLocale := clockW.nowLocale
          birthLocale := fileHello.birthLocale }) ∧
    (∃ r, readObsidianFile "/v" (obsidianUpdate "/v" clockW fsW "a.md" "world" false).1 "a.md" =
        Except.ok r ∧ r.content = "world")) :=
  ⟨by decide, by decide,
    update_append_semantics "/v" clockW fsW "a.md" "world" fileHello
      (by decide) (by decide)⟩

/-- C7: for every candidate file whose content contains the query
case-insensitively, the content search reports exactly the first 5 matching
lines (all of them when fewer than 5 match), in ascending line-number
order, and the stored content preview keeps exactly the first 200
characters of the content, with an ellipsis marker appended when the
content is longer. -/
theorem contentSearch_cap (content query : String) (info : FileInfo)
    (h : strContains (lowerStr content) (lowerStr query) = true) :
    searchFileResult content info query =
      some { fileInfo := info
             content := contentPreview content
             «matches» := (fileMatches content query).take 5 } ∧
    ((fileMatches content query).take 5).length =
      min 5 (fileMatches content query).length ∧
    List.Pairwise (fun a b : Nat × String => a.1 < b.1)
      ((fileMatches content query).take 5) ∧
    (strLen content > 200 →
      contentPreview content = strTake 200 content ++ "..." ∧
      strLen (contentPreview content) = 203) ∧
    (strLen content ≤ 200 → contentPreview content = content) := by
  refine ⟨by simp [searchFileResult, h],
    by simp [List.length_take],
    List.Pairwise.sublist (List.take_sublist 5 _) (fileMatches_pairwise content query),
    ?_, ?_⟩
  · intro h200
    have hd : (contentPreview content).data = content.data.take 200 ++ "...".data := by
      simp [contentPreview, if_pos h200, strTake, strData_append, strMk_data]
    refine ⟨by simp [contentPreview, h200], ?_⟩
    have hlen : content.data.length > 200 := h200
    have h3 : "...".data.length = 3 := rfl
    simp only [strLen, hd, List.length_append, List.length_take, h3]
    omega
  · intro hle
    simp [contentPreview, Nat.not_lt.mpr hle]

/-- C7 (witness): a file whose ten lines all match the query `"x"` yields
exactly 5 reported matches, in ascending line order, per the capping
theorem instantiated at that content. -/
theorem contentSearch_cap_witness :
    strContains (lowerStr tenLines) (lowerStr "x") = true ∧
    (fileMatches tenLines "x").length = 10 ∧
    (fileMatches tenLines "x").take 5 =
      [(1, "x"), (2, "x"), (3, "x"), (4, "x"), (5, "x")] ∧
    (searchFileResult tenLines infoW "x" =
      some { fileInfo := infoW
             content := contentPreview tenLines
             «matches» := (fileMatches tenLines "x").take 5 } ∧
    ((fileMatches tenLines "x").take 5).length =
      min 5 (fileMatches tenLines "x").length ∧
    List.Pairwise (fun a b : Nat × String => a.1 < b.1)
      ((fileMatches tenLines "x").take 5) ∧
    (strLen tenLines > 200 →
      contentPreview tenLines = strTake 200 tenLines ++ "..." ∧
      strLen (contentPreview tenLines) = 203) ∧
    (strLen tenLines ≤ 200 → contentPreview tenLines = tenLines)) :=
  ⟨by decide, by decide, by decide, contentSearch_cap tenLines "x" infoW (by decide)⟩

/-- C8: per-file read errors do not abort the content search: if reading
one candidate file fails, the loop result over the whole candidate list is
exactly the result over the remaining candidates — the matches of the other
files are all still reported, and the operation as a whole succeeds. -/
theorem contentSearch_partial_failure (root : String) (fs : FS) (query : String)
    (xs ys : List FileInfo) (bad : FileInfo) (e : String)
    (h : readObsidianFile root fs bad.path = Except.error e) :
    contentSearchLoop root fs query (xs ++ bad :: ys) =
      contentSearchLoop root fs query (xs ++ ys) := by
  induction xs with
  | nil => simp [contentSearchLoop, h]
  | cons x xs ih =>
    simp only [List.cons_append, contentSearchLoop, List.append_eq]
    rw [ih]

/-- C8 (witness): with candidates `[a.md, missing.md]` over the fixture
vault, reading `missing.md` throws, yet the search result equals the result
over `[a.md]` alone and still reports the match found in `a.md`. -/
theorem contentSearch_partial_failure_witness :
    readObsidianFile "/v" fsW infoBad.path = Except.error "ENOENT: /v/missing.md" ∧
    (contentSearchLoop "/v" fsW "ell" ([infoW] ++ infoBad :: []) =
      contentSearchLoop "/v" fsW "ell" ([infoW] ++ [])) ∧
    (contentSearchLoop "/v" fsW "ell" ([infoW] ++ infoBad :: [])).length = 1 :=
  ⟨by decide,
    contentSearch_partial_failure "/v" fsW "ell" [infoW] [] infoBad
      "ENOENT: /v/missing.md" (by decide),
    by decide⟩

/-- C9: neither `obsidian-update` nor `obsidian-create` modifies or removes
any entry of the per-process `resourceCache`; consequently, after a
successful `obsidian-read` resource fetch for a path (cached under
`obsidian://{path}/read`), a later `obsidian-view` call for the same path
returns the text rendered from the cached pre-modification content and
file info, even though the file has just been changed by
`obsidian-update`. -/
theorem cache_stale_view (root : String) (localeOf : String → String) (clock : Clock)
    (st : ServerState) (filePath n : String) (append : Bool) (r : ReadResult)
    (hread : readObsidianFile root st.fs filePath = Except.ok r) :
    (∀ clock2 p c a, (serverUpdate root clock2 st p c a).1.cache = st.cache) ∧
    (∀ clock2 p c o, (serverCreate root clock2 st p c o).1.cache = st.cache) ∧
    (obsidianView root localeOf
        (serverUpdate root clock (obsidianReadResource root st filePath).1 filePath n append).1
        filePath).2 = viewText localeOf r := by
  refine ⟨fun _ _ _ _ => rfl, fun _ _ _ _ => rfl, ?_⟩
  have h1 : (obsidianReadResource root st filePath).1 =
      { st with cache := cacheSet st.cache (readUri filePath) r } := by
    simp [obsidianReadResource, hread]
  rw [h1]
  simp [obsidianView, serverUpdate, cacheSet]

/-- C9 (witness): read `/v/a.md` through the resource (caching its
`"hello"` content), update the file, then view it: the view text is still
rendered from the cached pre-update read result, and the update leaves the
cache component untouched. -/
theorem cache_stale_view_witness :
    readObsidianFile "/v" stW.fs "a.md" = Except.ok rW ∧
    (serverUpdate "/v" clockW stW "a.md" "bye" true).1.cache = stW.cache ∧
    (serverCreate "/v" clockW stW "a.md" "bye" true).1.cache = stW.cache ∧
    (obsidianView "/v" id
        (serverUpdate "/v" clockW (obsidianReadResource "/v" stW "a.md").1 "a.md" "bye" true).1
        "a.md").2 = viewText id rW :=
  ⟨by decide,
    (cache_stale_view "/v" id clockW stW "a.md" "bye" true rW (by decide)).1
      clockW "a.md" "bye" true,
    (cache_stale_view "/v" id clockW stW "a.md" "bye" true rW (by decide)).2.1
      clockW "a.md" "bye" true,
    (cache_stale_view "/v" id clockW stW "a.md" "bye" true rW (by decide)).2.2⟩
